import Mathlib

/-!
# Verification of the iterative DHT lookup engine (`src/query.rs`)

Shallow embedding of `Query` (the Lookup state machine) from `src/query.rs`,
together with executable models of its two external collaborators, the
candidate routing table and the KRPC transport socket, which are not part of
the sources and are modelled from the specification's collaborator contracts.

Machine integers (`Id`, transaction ids) are modelled as `Nat`; the request
payload is opaque to the Lookup and modelled as `Nat`.  The mutable-reference
style of the Rust source is translated to explicit state passing: a method
taking `&mut self` and `&mut socket` becomes a function returning the updated
`Query` and `KrpcSocket`.
-/

namespace Mainline

/-- A network address: IPv4 or IPv6, carrying an opaque numeric payload.
The Lookup only ever inspects the family (`is_ipv6`) and equality. -/
inductive SocketAddr where
  | v4 (n : Nat) : SocketAddr
  | v6 (n : Nat) : SocketAddr
deriving DecidableEq, Repr

/-- `SocketAddr::is_ipv6` from the Rust standard library: true exactly on the
`v6` constructor. -/
def SocketAddr.is_ipv6 : SocketAddr → Bool
  | .v4 _ => false
  | .v6 _ => true

/-- A DHT node: an (identifier, address) pair (`common::Node`). -/
structure Node where
  id : Nat
  address : SocketAddr
deriving DecidableEq, Repr

/-- Modelled from the spec: the Candidate Table collaborator (§4.2,
`RoutingTable`), whose source is not under `src/`.  It holds a self
identifier and the nodes discovered so far; capacity/eviction policy is its
own and is modelled as unbounded insertion. -/
structure RoutingTable where
  self_id : Nat
  nodes : List Node
deriving Repr

/-- Modelled from the spec: `RoutingTable::new().with_id(id)` — an empty
table whose internal notion of self is `id`. -/
def RoutingTable.newWithId (id : Nat) : RoutingTable :=
  { self_id := id, nodes := [] }

/-- Modelled from the spec: `RoutingTable::is_empty` — true iff the table
holds zero nodes. -/
def RoutingTable.is_empty (t : RoutingTable) : Bool :=
  t.nodes.isEmpty

/-- Modelled from the spec: `RoutingTable::add` — insert a node (seed inserts
unconditionally at this layer, §4.1). -/
def RoutingTable.add (t : RoutingTable) (node : Node) : RoutingTable :=
  { t with nodes := t.nodes ++ [node] }

/-- Distance ranking used by the table: ascending bitwise-XOR distance of a
node's identifier to the target identifier. -/
def distLe (target : Nat) (a b : Node) : Prop :=
  Nat.xor a.id target ≤ Nat.xor b.id target

instance (target : Nat) : DecidableRel (distLe target) := by
  intro a b
  unfold distLe
  infer_instance

/-- Modelled from the spec: `RoutingTable::closest` (§4.2) — a finite ordered
sequence of the table's nodes, ascending by XOR distance to `target`, with a
deterministic tie-break (stable insertion sort). -/
def RoutingTable.closest (t : RoutingTable) (target : Nat) : List Node :=
  List.insertionSort (distLe target) t.nodes

/-- Modelled from the spec: the Transport collaborator (§4.3, `KrpcSocket`),
whose source is not under `src/`.  `next_tid` allocates fresh correlation
tokens, `inflight_requests` is the set of tokens the transport still reports
as pending, and `sent` is the log of transmitted (address, request) pairs. -/
structure KrpcSocket where
  next_tid : Nat
  inflight_requests : List Nat
  sent : List (SocketAddr × Nat)
deriving Repr

/-- Modelled from the spec: `KrpcSocket::request` — allocate a fresh token,
transmit the request to the address, register the token as pending, and
return the token. -/
def KrpcSocket.request (s : KrpcSocket) (address : SocketAddr) (request : Nat) :
    Nat × KrpcSocket :=
  (s.next_tid,
   { next_tid := s.next_tid + 1,
     inflight_requests := s.next_tid :: s.inflight_requests,
     sent := s.sent ++ [(address, request)] })

/-- The Lookup state machine (`Query` in `src/query.rs`). -/
structure Query where
  target : Nat
  request : Nat
  table : RoutingTable
  inflight_requests : List Nat
  visited : List SocketAddr
deriving Repr

namespace Query

/-- `Query::new` — a fresh lookup: candidate table seeded with the target as
self id, no inflight requests, nothing visited. -/
def new (target : Nat) (request : Nat) : Query :=
  { target := target
    request := request
    table := RoutingTable.newWithId target
    inflight_requests := []
    visited := [] }

/-- `Query::is_empty` — the candidate table holds zero nodes. -/
def is_empty (q : Query) : Bool :=
  q.table.is_empty

/-- `Query::is_done` — no inflight requests are outstanding. -/
def is_done (q : Query) : Bool :=
  q.inflight_requests.isEmpty

/-- `Query::closest` — note the Rust body ignores its `target` argument and
always ranks against `self.target`. -/
def closest (q : Query) (target : Nat) : List Node :=
  q.table.closest q.target

/-- `Query::add` — add a node to the candidate table. -/
def add (q : Query) (node : Node) : Query :=
  { q with table := q.table.add node }

/-- `Query::visit` — if the address was already visited or is IPv6, do
nothing; otherwise send the request template, record the returned token in
`inflight_requests`, and add the address to `visited`. -/
def visit (q : Query) (socket : KrpcSocket) (address : SocketAddr) :
    Query × KrpcSocket :=
  if address ∈ q.visited ∨ address.is_ipv6 = true then
    (q, socket)
  else
    let r := socket.request address q.request
    ({ q with
        inflight_requests := q.inflight_requests ++ [r.1],
        visited := address :: q.visited },
     r.2)

/-- `Query::add_candidates` — if `tid` is one of this query's inflight
requests, remove it (first occurrence, as `position`/`remove` do) and add
every claimed node to the table, returning `true`; otherwise return `false`
with no mutation.  The socket reference is threaded through untouched, as in
the source, which never uses it. -/
def add_candidates (q : Query) (tid : Nat) (socket : KrpcSocket)
    (nodes : List Node) : Query × KrpcSocket × Bool :=
  if tid ∈ q.inflight_requests then
    ({ q with
        inflight_requests := q.inflight_requests.erase tid,
        table := nodes.foldl RoutingTable.add q.table },
     socket, true)
  else
    (q, socket, false)

/-- `Query::clear_timedout_requests` — keep only the inflight tokens the
socket still reports as pending. -/
def clear_timedout_requests (q : Query) (socket : KrpcSocket) : Query :=
  { q with
      inflight_requests :=
        q.inflight_requests.filter (fun tid => decide (tid ∈ socket.inflight_requests)) }

/-- Loop body of `Query::visit_closest`: visit one node's address. -/
def visitStep (p : Query × KrpcSocket) (node : Node) : Query × KrpcSocket :=
  visit p.1 p.2 node.address

/-- `Query::visit_closest` — rank candidates by distance to the target, drop
those whose address was already visited, and visit the rest in order. -/
def visit_closest (q : Query) (socket : KrpcSocket) : Query × KrpcSocket :=
  let to_visit :=
    (q.table.closest q.target).filter (fun node => !decide (node.address ∈ q.visited))
  to_visit.foldl visitStep (q, socket)

/-- `Query::cleanup_after_finish` — if no requests are inflight and some
addresses were visited, reset the visited set.  The socket parameter is
unused, as in the source. -/
def cleanup_after_finish (q : Query) (socket : KrpcSocket) : Query :=
  if q.inflight_requests.isEmpty && !q.visited.isEmpty then
    { q with visited := [] }
  else
    q

/-- `Query::tick` — the per-step advance: reap timed-out requests, expand the
frontier, then reset the visited set when finished. -/
def tick (q : Query) (socket : KrpcSocket) : Query × KrpcSocket :=
  let q1 := clear_timedout_requests q socket
  let r := visit_closest q1 socket
  (cleanup_after_finish r.1 r.2, r.2)

end Query

/-- One driver-visible operation on a Lookup (§4.1's public contract):
seeding a node, absorbing a resolved response's candidates, dispatching to an
address, or one step advance. -/
inductive Op where
  | seed (node : Node) : Op
  | absorb (tid : Nat) (nodes : List Node) : Op
  | dispatch (address : SocketAddr) : Op
  | step : Op

/-- Execute one operation on a (lookup, transport) pair. -/
def execOp (st : Query × KrpcSocket) : Op → Query × KrpcSocket
  | .seed node => (st.1.add node, st.2)
  | .absorb tid nodes =>
      let r := st.1.add_candidates tid st.2 nodes
      (r.1, r.2.1)
  | .dispatch address => st.1.visit st.2 address
  | .step => st.1.tick st.2

/-- Execute a sequence of operations. -/
def execOps (st : Query × KrpcSocket) (ops : List Op) : Query × KrpcSocket :=
  ops.foldl execOp st

/-- Whether the Reset phase of a `tick` from this state would fire, i.e.
whether `cleanup_after_finish` would clear `visited`. -/
def stepResetFires (q : Query) (socket : KrpcSocket) : Bool :=
  let q1 := q.clear_timedout_requests socket
  let r := q1.visit_closest socket
  r.1.inflight_requests.isEmpty && !r.1.visited.isEmpty

/-- A run of operations during which the Reset phase never fires: `visited`
is never cleared in the span. -/
def noResetRun (q : Query) (socket : KrpcSocket) : List Op → Bool
  | [] => true
  | op :: rest =>
      (match op with
       | Op.step => !stepResetFires q socket
       | _ => true)
      && (let st := execOp (q, socket) op
          noResetRun st.1 st.2 rest)

/-- Number of requests the transport has sent to a given address. -/
def sendCount (a : SocketAddr) (s : KrpcSocket) : Nat :=
  (s.sent.filter (fun p => decide (p.1 = a))).length

/-! ## Helper lemmas -/

theorem table_foldl_add (nodes : List Node) (t : RoutingTable) :
    (nodes.foldl RoutingTable.add t).nodes = t.nodes ++ nodes := by
  induction nodes generalizing t with
  | nil => simp
  | cons n ns ih => simp [List.foldl_cons, ih, RoutingTable.add]

theorem table_foldl_add_self_id (nodes : List Node) (t : RoutingTable) :
    (nodes.foldl RoutingTable.add t).self_id = t.self_id := by
  induction nodes generalizing t with
  | nil => rfl
  | cons n ns ih => exact ih (t.add n)

theorem sendCount_request (a b : SocketAddr) (req : Nat) (s : KrpcSocket)
    (hba : b ≠ a) : sendCount a (s.request b req).2 = sendCount a s := by
  simp [sendCount, KrpcSocket.request, List.filter_append, hba]

/-- `visit` keeps every already-visited address visited and never sends to
it. -/
theorem visit_mem_preserved (q : Query) (s : KrpcSocket) (a b : SocketAddr)
    (ha : a ∈ q.visited) :
    a ∈ (q.visit s b).1.visited ∧ sendCount a (q.visit s b).2 = sendCount a s := by
  unfold Query.visit
  by_cases h : b ∈ q.visited ∨ b.is_ipv6 = true
  · simp [h, ha]
  · have hb : b ∉ q.visited := fun hmem => h (Or.inl hmem)
    have hba : b ≠ a := fun e => hb (e ▸ ha)
    simp only [if_neg h]
    exact ⟨List.mem_cons_of_mem _ ha, sendCount_request a b q.request s hba⟩

theorem foldl_visit_mem_preserved (a : SocketAddr) (nodes : List Node)
    (q : Query) (s : KrpcSocket) (ha : a ∈ q.visited) :
    a ∈ (nodes.foldl Query.visitStep (q, s)).1.visited ∧
      sendCount a (nodes.foldl Query.visitStep (q, s)).2 = sendCount a s := by
  induction nodes generalizing q s with
  | nil => exact ⟨ha, rfl⟩
  | cons n ns ih =>
      have h1 := visit_mem_preserved q s a n.address ha
      have h2 := ih (q.visit s n.address).1 (q.visit s n.address).2 h1.1
      simp only [List.foldl_cons, Query.visitStep]
      exact ⟨h2.1, h2.2.trans h1.2⟩

/-- `visit` never adds an IPv6 address to `visited` and never sends to it. -/
theorem visit_ipv6_preserved (q : Query) (s : KrpcSocket) (a b : SocketAddr)
    (hip : a.is_ipv6 = true) (ha : a ∉ q.visited) :
    a ∉ (q.visit s b).1.visited ∧ sendCount a (q.visit s b).2 = sendCount a s := by
  unfold Query.visit
  by_cases h : b ∈ q.visited ∨ b.is_ipv6 = true
  · simp [h, ha]
  · have hb6 : b.is_ipv6 = false := by
      cases hb : b.is_ipv6
      · rfl
      · exact absurd (Or.inr hb) h
    have hba : b ≠ a := fun e => by rw [e, hip] at hb6; exact Bool.noConfusion hb6
    simp only [if_neg h]
    refine ⟨?_, sendCount_request a b q.request s hba⟩
    intro hmem
    rcases List.mem_cons.mp hmem with h1 | h1
    · exact hba h1.symm
    · exact ha h1

theorem foldl_visit_ipv6_preserved (a : SocketAddr) (hip : a.is_ipv6 = true)
    (nodes : List Node) (q : Query) (s : KrpcSocket) (ha : a ∉ q.visited) :
    a ∉ (nodes.foldl Query.visitStep (q, s)).1.visited ∧
      sendCount a (nodes.foldl Query.visitStep (q, s)).2 = sendCount a s := by
  induction nodes generalizing q s with
  | nil => exact ⟨ha, rfl⟩
  | cons n ns ih =>
      have h1 := visit_ipv6_preserved q s a n.address hip ha
      have h2 := ih (q.visit s n.address).1 (q.visit s n.address).2 h1.1
      simp only [List.foldl_cons, Query.visitStep]
      exact ⟨h2.1, h2.2.trans h1.2⟩

theorem execOps_append (st : Query × KrpcSocket) (pre post : List Op) :
    execOps st (pre ++ post) = execOps (execOps st pre) post := by
  simp [execOps, List.foldl_append]

theorem tick_mem_preserved (q : Query) (s : KrpcSocket) (a : SocketAddr)
    (ha : a ∈ q.visited) (hf : stepResetFires q s = false) :
    a ∈ (q.tick s).1.visited ∧ sendCount a (q.tick s).2 = sendCount a s := by
  have hfold := foldl_visit_mem_preserved a
    (((q.clear_timedout_requests s).table.closest (q.clear_timedout_requests s).target).filter
      (fun node => !decide (node.address ∈ (q.clear_timedout_requests s).visited)))
    (q.clear_timedout_requests s) s ha
  have hres : ((q.clear_timedout_requests s).visit_closest s) =
      (((q.clear_timedout_requests s).table.closest (q.clear_timedout_requests s).target).filter
        (fun node => !decide (node.address ∈ (q.clear_timedout_requests s).visited))).foldl
        Query.visitStep (q.clear_timedout_requests s, s) := rfl
  have hcond : (((q.clear_timedout_requests s).visit_closest s).1.inflight_requests.isEmpty
      && !((q.clear_timedout_requests s).visit_closest s).1.visited.isEmpty) = false := hf
  have htick : q.tick s =
      (Query.cleanup_after_finish ((q.clear_timedout_requests s).visit_closest s).1
        ((q.clear_timedout_requests s).visit_closest s).2,
       ((q.clear_timedout_requests s).visit_closest s).2) := rfl
  have hclean : Query.cleanup_after_finish ((q.clear_timedout_requests s).visit_closest s).1
      ((q.clear_timedout_requests s).visit_closest s).2 =
      ((q.clear_timedout_requests s).visit_closest s).1 := by
    unfold Query.cleanup_after_finish
    simp [hcond]
  rw [htick]
  rw [hclean, hres]
  exact hfold

theorem tick_ipv6_preserved (q : Query) (s : KrpcSocket) (a : SocketAddr)
    (hip : a.is_ipv6 = true) (ha : a ∉ q.visited) :
    a ∉ (q.tick s).1.visited ∧ sendCount a (q.tick s).2 = sendCount a s := by
  have hfold := foldl_visit_ipv6_preserved a hip
    (((q.clear_timedout_requests s).table.closest (q.clear_timedout_requests s).target).filter
      (fun node => !decide (node.address ∈ (q.clear_timedout_requests s).visited)))
    (q.clear_timedout_requests s) s ha
  have hres : ((q.clear_timedout_requests s).visit_closest s) =
      (((q.clear_timedout_requests s).table.closest (q.clear_timedout_requests s).target).filter
        (fun node => !decide (node.address ∈ (q.clear_timedout_requests s).visited))).foldl
        Query.visitStep (q.clear_timedout_requests s, s) := rfl
  have htick : q.tick s =
      (Query.cleanup_after_finish ((q.clear_timedout_requests s).visit_closest s).1
        ((q.clear_timedout_requests s).visit_closest s).2,
       ((q.clear_timedout_requests s).visit_closest s).2) := rfl
  rw [htick]
  refine ⟨?_, by rw [← hres] at hfold; exact hfold.2⟩
  unfold Query.cleanup_after_finish
  split
  · simp
  · rw [← hres] at hfold
    exact hfold.1

theorem execOp_mem_preserved (a : SocketAddr) (q : Query) (s : KrpcSocket) (op : Op)
    (ha : a ∈ q.visited)
    (hnr : (match op with | Op.step => !stepResetFires q s | _ => true) = true) :
    a ∈ (execOp (q, s) op).1.visited ∧
      sendCount a (execOp (q, s) op).2 = sendCount a s := by
  cases op with
  | seed n => exact ⟨ha, rfl⟩
  | absorb tid nodes =>
      show a ∈ (q.add_candidates tid s nodes).1.visited ∧
        sendCount a (q.add_candidates tid s nodes).2.1 = sendCount a s
      unfold Query.add_candidates
      by_cases h : tid ∈ q.inflight_requests <;> simp [h, ha]
  | dispatch b => exact visit_mem_preserved q s a b ha
  | step =>
      have hf : stepResetFires q s = false := by simpa using hnr
      exact tick_mem_preserved q s a ha hf

theorem execOp_ipv6_preserved (a : SocketAddr) (hip : a.is_ipv6 = true)
    (q : Query) (s : KrpcSocket) (op : Op) (ha : a ∉ q.visited) :
    a ∉ (execOp (q, s) op).1.visited ∧
      sendCount a (execOp (q, s) op).2 = sendCount a s := by
  cases op with
  | seed n => exact ⟨ha, rfl⟩
  | absorb tid nodes =>
      show a ∉ (q.add_candidates tid s nodes).1.visited ∧
        sendCount a (q.add_candidates tid s nodes).2.1 = sendCount a s
      unfold Query.add_candidates
      by_cases h : tid ∈ q.inflight_requests <;> simp [h, ha]
  | dispatch b => exact visit_ipv6_preserved q s a b hip ha
  | step => exact tick_ipv6_preserved q s a hip ha

theorem noResetRun_mem_preserved (a : SocketAddr) (ops : List Op) :
    ∀ (q : Query) (s : KrpcSocket), a ∈ q.visited → noResetRun q s ops = true →
      a ∈ (execOps (q, s) ops).1.visited ∧
      sendCount a (execOps (q, s) ops).2 = sendCount a s := by
  induction ops with
  | nil => intro q s ha _; exact ⟨ha, rfl⟩
  | cons op rest ih =>
      intro q s ha hnr
      simp only [noResetRun, Bool.and_eq_true] at hnr
      obtain ⟨h1, h2⟩ := hnr
      have hop := execOp_mem_preserved a q s op ha h1
      have hrest := ih (execOp (q, s) op).1 (execOp (q, s) op).2 hop.1 h2
      exact ⟨hrest.1, hrest.2.trans hop.2⟩

theorem execOps_ipv6_preserved (a : SocketAddr) (hip : a.is_ipv6 = true) (ops : List Op) :
    ∀ (q : Query) (s : KrpcSocket), a ∉ q.visited →
      a ∉ (execOps (q, s) ops).1.visited ∧
      sendCount a (execOps (q, s) ops).2 = sendCount a s := by
  induction ops with
  | nil => intro q s ha; exact ⟨ha, rfl⟩
  | cons op rest ih =>
      intro q s ha
      have hop := execOp_ipv6_preserved a hip q s op ha
      have hrest := ih (execOp (q, s) op).1 (execOp (q, s) op).2 hop.1
      exact ⟨hrest.1, hrest.2.trans hop.2⟩

theorem noResetRun_append (pre : List Op) :
    ∀ (post : List Op) (q : Query) (s : KrpcSocket), noResetRun q s (pre ++ post) = true →
      noResetRun (execOps (q, s) pre).1 (execOps (q, s) pre).2 post = true := by
  induction pre with
  | nil => intro post q s h; exact h
  | cons op rest ih =>
      intro post q s h
      simp only [List.cons_append, noResetRun, Bool.and_eq_true] at h
      exact ih post (execOp (q, s) op).1 (execOp (q, s) op).2 h.2

/-! ## Claim theorems -/

/-- C1: `step` (`Query::tick`) performs exactly three phases in order — first
it removes from pending every token the transport no longer reports as
pending, then it computes the closest candidates to the target, filters out
addresses already visited and dispatches to each remaining node, and finally,
if pending is empty and visited is non-empty, it clears visited. -/
theorem tick_three_phases (q : Query) (s : KrpcSocket) :
    q.tick s =
      (let reaped : Query :=
        { q with inflight_requests :=
            q.inflight_requests.filter (fun tid => decide (tid ∈ s.inflight_requests)) }
       let frontier :=
         (reaped.table.closest reaped.target).filter
           (fun node => !decide (node.address ∈ reaped.visited))
       let expanded := frontier.foldl Query.visitStep (reaped, s)
       (if expanded.1.inflight_requests.isEmpty && !expanded.1.visited.isEmpty then
          { expanded.1 with visited := [] }
        else expanded.1,
        expanded.2)) := rfl

/-- C2: `absorb` (`Query::add_candidates`) with a token present in pending
removes it from pending, inserts every node of the list into the candidate
table, leaves everything else (including the transport) unchanged, and
returns success; with an absent token it performs no mutation at all and
returns failure. -/
theorem add_candidates_spec (q : Query) (tid : Nat) (s : KrpcSocket) (nodes : List Node) :
    (tid ∈ q.inflight_requests →
       ((q.add_candidates tid s nodes).2.2 = true ∧
        (q.add_candidates tid s nodes).1.inflight_requests = q.inflight_requests.erase tid ∧
        (q.add_candidates tid s nodes).1.table.nodes = q.table.nodes ++ nodes ∧
        (q.add_candidates tid s nodes).1.table.self_id = q.table.self_id ∧
        (q.add_candidates tid s nodes).1.visited = q.visited ∧
        (q.add_candidates tid s nodes).1.target = q.target ∧
        (q.add_candidates tid s nodes).1.request = q.request ∧
        (q.add_candidates tid s nodes).2.1 = s)) ∧
    (tid ∉ q.inflight_requests → q.add_candidates tid s nodes = (q, s, false)) := by
  constructor
  · intro h
    simp [Query.add_candidates, h, table_foldl_add, table_foldl_add_self_id]
  · intro h
    simp [Query.add_candidates, h]

/-- C2 witness: a concrete absorb with a known token succeeds; a concrete
absorb with an unknown token is the identity and fails. -/
theorem add_candidates_spec_witness :
    ((Query.mk 0 9 ⟨0, []⟩ [5] []).add_candidates 5 ⟨0, [], []⟩
        [⟨1, SocketAddr.v4 1⟩]).2.2 = true ∧
    (Query.mk 0 9 ⟨0, []⟩ [4] []).add_candidates 7 ⟨0, [], []⟩ [] =
      (Query.mk 0 9 ⟨0, []⟩ [4] [], ⟨0, [], []⟩, false) :=
  ⟨((add_candidates_spec (Query.mk 0 9 ⟨0, []⟩ [5] []) 5 ⟨0, [], []⟩
      [⟨1, SocketAddr.v4 1⟩]).1 (by decide)).1,
   (add_candidates_spec (Query.mk 0 9 ⟨0, []⟩ [4] []) 7 ⟨0, [], []⟩ []).2 (by decide)⟩

/-- C3: `dispatch` (`Query::visit`) on an already-visited or IPv6 address
sends nothing and leaves the state unchanged; on a fresh IPv4 address it
sends one request to it, appends the returned correlation token to pending,
adds the address to visited, changes nothing else, and a second dispatch to
the same address is then a no-op (so exactly one request is sent). -/
theorem visit_spec (q : Query) (s : KrpcSocket) (a : SocketAddr) :
    ((a ∈ q.visited ∨ a.is_ipv6 = true) → q.visit s a = (q, s)) ∧
    (a ∉ q.visited → a.is_ipv6 = false →
       ((q.visit s a).2.sent = s.sent ++ [(a, q.request)] ∧
        (q.visit s a).1.inflight_requests = q.inflight_requests ++ [s.next_tid] ∧
        (q.visit s a).1.visited = a :: q.visited ∧
        (q.visit s a).1.target = q.target ∧
        (q.visit s a).1.request = q.request ∧
        (q.visit s a).1.table = q.table ∧
        (q.visit s a).1.visit (q.visit s a).2 a = q.visit s a)) := by
  constructor
  · intro h
    unfold Query.visit
    rw [if_pos h]
  · intro h1 h2
    have hcond : ¬(a ∈ q.visited ∨ a.is_ipv6 = true) := by
      rintro (h | h)
      · exact h1 h
      · rw [h2] at h; exact Bool.noConfusion h
    simp [Query.visit, hcond, KrpcSocket.request]

/-- C3 witness: dispatching to a visited address is a no-op; dispatching to a
fresh IPv4 address sends exactly one request to it. -/
theorem visit_spec_witness :
    (Query.mk 0 9 ⟨0, []⟩ [] [SocketAddr.v4 1]).visit ⟨3, [], []⟩ (SocketAddr.v4 1) =
      (Query.mk 0 9 ⟨0, []⟩ [] [SocketAddr.v4 1], ⟨3, [], []⟩) ∧
    ((Query.new 0 9).visit ⟨3, [], []⟩ (SocketAddr.v4 2)).2.sent =
      [] ++ [(SocketAddr.v4 2, 9)] :=
  ⟨(visit_spec (Query.mk 0 9 ⟨0, []⟩ [] [SocketAddr.v4 1]) ⟨3, [], []⟩
      (SocketAddr.v4 1)).1 (Or.inl (by decide)),
   ((visit_spec (Query.new 0 9) ⟨3, [], []⟩ (SocketAddr.v4 2)).2
      (by decide) rfl).1⟩

/-- C5: `closest_candidates` (`Query::closest`) returns the candidate table's
nodes ordered ascending by XOR distance to the Lookup's own fixed target, and
the externally supplied target argument is ignored: any two arguments yield
the same sequence. -/
theorem closest_spec (q : Query) (t1 t2 : Nat) :
    q.closest t1 = q.closest t2 ∧
    List.Sorted (distLe q.target) (q.closest t1) ∧
    (q.closest t1).Perm q.table.nodes := by
  refine ⟨rfl, ?_, ?_⟩
  · letI : IsTotal Node (distLe q.target) := ⟨fun a b => Nat.le_total _ _⟩
    letI : IsTrans Node (distLe q.target) := ⟨fun a b c => Nat.le_trans⟩
    exact List.sorted_insertionSort _ _
  · exact List.perm_insertionSort _ _

/-- C4: throughout any sequence of seed, absorb, dispatch and step
operations in which the Reset phase never fires (`visited` is never
cleared), an address present in `visited` at any point of the span is never
sent a new request during the rest of the span. -/
theorem no_resend_to_visited (pre post : List Op) (q : Query) (s : KrpcSocket)
    (a : SocketAddr) (hnr : noResetRun q s (pre ++ post) = true)
    (ha : a ∈ (execOps (q, s) pre).1.visited) :
    sendCount a (execOps (q, s) (pre ++ post)).2 =
      sendCount a (execOps (q, s) pre).2 := by
  have h2 := noResetRun_append pre post q s hnr
  have h3 := noResetRun_mem_preserved a post (execOps (q, s) pre).1
    (execOps (q, s) pre).2 ha h2
  rw [execOps_append]
  exact h3.2

/-- C4 witness: after dispatching to an address, a further step in the same
reset-free span sends it nothing. -/
theorem no_resend_to_visited_witness :
    sendCount (SocketAddr.v4 1)
        (execOps (Query.new 0 9, ⟨0, [], []⟩)
          ([Op.dispatch (SocketAddr.v4 1)] ++ [Op.step])).2 =
      sendCount (SocketAddr.v4 1)
        (execOps (Query.new 0 9, ⟨0, [], []⟩) [Op.dispatch (SocketAddr.v4 1)]).2 :=
  no_resend_to_visited [Op.dispatch (SocketAddr.v4 1)] [Op.step] (Query.new 0 9)
    ⟨0, [], []⟩ (SocketAddr.v4 1) (by decide) (by decide)

/-- C6: the Reset phase (`Query::cleanup_after_finish`) clears `visited`
exactly when pending is empty and visited is non-empty, and changes nothing
else: target, request template, candidate table and pending are untouched. -/
theorem cleanup_spec (q : Query) (s : KrpcSocket) :
    (q.cleanup_after_finish s).target = q.target ∧
    (q.cleanup_after_finish s).request = q.request ∧
    (q.cleanup_after_finish s).table = q.table ∧
    (q.cleanup_after_finish s).inflight_requests = q.inflight_requests ∧
    (q.cleanup_after_finish s).visited =
      (if q.inflight_requests.isEmpty && !q.visited.isEmpty then [] else q.visited) := by
  unfold Query.cleanup_after_finish
  by_cases h : (q.inflight_requests.isEmpty && !q.visited.isEmpty) = true
  · simp [h]
  · simp [h]

/-- C7: starting from a fresh Lookup, no sequence of operations ever
dispatches a request to an IPv6 address, and an IPv6 address never appears in
`visited`. -/
theorem no_ipv6_dispatch (target request : Nat) (s0 : KrpcSocket) (ops : List Op)
    (a : SocketAddr) (hip : a.is_ipv6 = true) :
    a ∉ (execOps (Query.new target request, s0) ops).1.visited ∧
    sendCount a (execOps (Query.new target request, s0) ops).2 = sendCount a s0 :=
  execOps_ipv6_preserved a hip ops (Query.new target request) s0 (by simp [Query.new])

/-- C7 witness: seeding an IPv6 node, stepping, and even dispatching directly
to its address leaves it unvisited and sends it nothing. -/
theorem no_ipv6_dispatch_witness :
    SocketAddr.v6 1 ∉ (execOps (Query.new 0 9, ⟨0, [], []⟩)
        [Op.seed ⟨1, SocketAddr.v6 1⟩, Op.step, Op.dispatch (SocketAddr.v6 1)]).1.visited ∧
    sendCount (SocketAddr.v6 1) (execOps (Query.new 0 9, ⟨0, [], []⟩)
        [Op.seed ⟨1, SocketAddr.v6 1⟩, Op.step, Op.dispatch (SocketAddr.v6 1)]).2 =
      sendCount (SocketAddr.v6 1) ⟨0, [], []⟩ :=
  no_ipv6_dispatch 0 9 ⟨0, [], []⟩
    [Op.seed ⟨1, SocketAddr.v6 1⟩, Op.step, Op.dispatch (SocketAddr.v6 1)]
    (SocketAddr.v6 1) rfl

/-- C8: a step on a Lookup whose candidate table is empty sends no request
(the transport is returned unchanged) and adds nothing to pending or
visited. -/
theorem empty_table_tick (q : Query) (s : KrpcSocket) (h : q.is_empty = true) :
    (q.tick s).2 = s ∧
    List.Sublist (q.tick s).1.inflight_requests q.inflight_requests ∧
    List.Sublist (q.tick s).1.visited q.visited := by
  have htab : q.table.nodes = [] := by
    unfold Query.is_empty RoutingTable.is_empty at h
    exact List.isEmpty_iff.mp h
  have hclosest : q.table.closest q.target = [] := by
    unfold RoutingTable.closest
    rw [htab]
    rfl
  have hvc : (q.clear_timedout_requests s).visit_closest s =
      (q.clear_timedout_requests s, s) := by
    unfold Query.visit_closest
    rw [show (q.clear_timedout_requests s).table.closest
      (q.clear_timedout_requests s).target = [] from hclosest]
    rfl
  have htick : q.tick s = (Query.cleanup_after_finish (q.clear_timedout_requests s) s, s) := by
    show (Query.cleanup_after_finish ((q.clear_timedout_requests s).visit_closest s).1
        ((q.clear_timedout_requests s).visit_closest s).2,
        ((q.clear_timedout_requests s).visit_closest s).2) = _
    rw [hvc]
  rw [htick]
  refine ⟨rfl, ?_, ?_⟩
  · have hinfl : (Query.cleanup_after_finish (q.clear_timedout_requests s) s).inflight_requests
        = (q.clear_timedout_requests s).inflight_requests := by
      unfold Query.cleanup_after_finish
      split <;> rfl
    rw [hinfl]
    exact List.filter_sublist _
  · unfold Query.cleanup_after_finish
    split
    · exact List.nil_sublist _
    · exact List.Sublist.refl _

/-- C8 witness: stepping a concrete Lookup with an empty candidate table
leaves the transport unchanged and grows neither pending nor visited. -/
theorem empty_table_tick_witness :
    ((Query.mk 0 9 ⟨0, []⟩ [3] [SocketAddr.v4 1]).tick ⟨4, [3], []⟩).2 = ⟨4, [3], []⟩ ∧
    List.Sublist ((Query.mk 0 9 ⟨0, []⟩ [3] [SocketAddr.v4 1]).tick
        ⟨4, [3], []⟩).1.inflight_requests [3] ∧
    List.Sublist ((Query.mk 0 9 ⟨0, []⟩ [3] [SocketAddr.v4 1]).tick
        ⟨4, [3], []⟩).1.visited [SocketAddr.v4 1] :=
  empty_table_tick (Query.mk 0 9 ⟨0, []⟩ [3] [SocketAddr.v4 1]) ⟨4, [3], []⟩ rfl

/-- C9: after any step returns, if pending is empty then visited is empty,
whatever the transport did. -/
theorem tick_pending_empty_visited_empty (q : Query) (s : KrpcSocket)
    (h : (q.tick s).1.inflight_requests.isEmpty = true) :
    (q.tick s).1.visited = [] := by
  have htick : (q.tick s).1 = Query.cleanup_after_finish
      ((q.clear_timedout_requests s).visit_closest s).1
      ((q.clear_timedout_requests s).visit_closest s).2 := rfl
  rw [htick] at h ⊢
  unfold Query.cleanup_after_finish at h ⊢
  by_cases hc : ((((q.clear_timedout_requests s).visit_closest s).1.inflight_requests.isEmpty
      && !((q.clear_timedout_requests s).visit_closest s).1.visited.isEmpty) = true)
  · simp [hc]
  · simp only [if_neg hc] at h ⊢
    rcases Bool.eq_false_or_eq_true
        (((q.clear_timedout_requests s).visit_closest s).1.visited.isEmpty) with hv | hv
    · exact List.isEmpty_iff.mp hv
    · exact absurd (by simp [h, hv]) hc

/-- C9 witness: a step of a fresh Lookup ends with empty pending and empty
visited. -/
theorem tick_pending_empty_visited_empty_witness :
    ((Query.new 0 9).tick ⟨0, [], []⟩).1.visited = [] :=
  tick_pending_empty_visited_empty (Query.new 0 9) ⟨0, [], []⟩ (by rfl)

/-- C10: `absorb` (`Query::add_candidates`) neither reads nor mutates its
transport argument: for any two transports the resulting Lookup state and
boolean agree, and the transport is passed through unchanged. -/
theorem absorb_ignores_transport (q : Query) (tid : Nat) (s1 s2 : KrpcSocket)
    (nodes : List Node) :
    (q.add_candidates tid s1 nodes).1 = (q.add_candidates tid s2 nodes).1 ∧
    (q.add_candidates tid s1 nodes).2.2 = (q.add_candidates tid s2 nodes).2.2 ∧
    (q.add_candidates tid s1 nodes).2.1 = s1 := by
  unfold Query.add_candidates
  by_cases h : tid ∈ q.inflight_requests <;> simp [h]

end Mainline
